import Mathlib

/-!
Shallow embedding of the `git-why` history-resolution pipeline
(`lib/git-why.js`, here `src/unnamed/part_000`, and the CLI driver
`src/bin/git-why.js`).  External effects (the git subprocess calls, the
file system, environment variables, the AI endpoint) are modelled as an
explicit `World` record of oracles; every pure computation of the source
is translated directly.  JavaScript numbers reaching these code paths are
integers, modelled as `Int`; `undefined`/`null` optional values are
modelled as `Option` with explicit JavaScript truthiness.
-/

namespace GitWhy

/-- Truthiness of a JavaScript number stored in an `Option`
(`undefined`/`null` is `none`): `undefined`, `null` and `0` are falsy,
every other integer is truthy. -/
def truthyNum : Option Int → Bool
  | none => false
  | some n => n != 0

/-- Truthiness of a JavaScript string stored in an `Option`:
`undefined` and the empty string are falsy. -/
def truthyStr : Option String → Bool
  | none => false
  | some s => s != ""

/-- JavaScript `Array.prototype.slice(s, e)` on a list of lines: negative
indices count from the end, both indices are clamped to `[0, length]`, and
the extracted window is the half-open `[s, e)`. -/
def jsSlice (l : List String) (s e : Int) : List String :=
  let n : Int := l.length
  let s' := if s < 0 then max (n + s) 0 else min s n
  let e' := if e < 0 then max (n + e) 0 else min e n
  (l.drop s'.toNat).take (e' - s').toNat

/-- Result record of `getCodeContext` (source lines 121–125). -/
structure CodeContext where
  code : String
  startLine : Int
  targetLine : Int
  deriving Repr, DecidableEq

/-- `getCodeContext(filePath, lineNumber, contextLines = 5)` from
`src/unnamed/part_000` lines 114–126.  The file read
(`readFileSync(filePath).split('\n')`) is modelled by passing the list of
lines directly.  `Math.max` / `Math.min` are `max` / `min` on `Int`. -/
def getCodeContext (fileLines : List String) (lineNumber : Int) (contextLines : Int) :
    CodeContext :=
  let start := max 0 (lineNumber - contextLines - 1)
  let stop := min (fileLines.length : Int) (lineNumber + contextLines)
  { code := String.intercalate "\n" (jsSlice fileLines start stop),
    startLine := start + 1,
    targetLine := lineNumber }

/-- The 1-based inclusive segment `[a, b]` of a list of lines (spec-side
description of a line window). -/
def segment1 (l : List String) (a b : Int) : List String :=
  (l.drop (a - 1).toNat).take (b - a + 1).toNat

/-- C1: for every file of `fileLineCount` lines, every `targetLine` in
`[1, fileLineCount]` and every radius, `getCodeContext` returns the joined
text of exactly the lines `[max(1, targetLine - radius),
min(fileLineCount, targetLine + radius)]` (1-based, inclusive), with
`startLine = max(1, targetLine - radius)` and `targetLine` unchanged; the
returned line range is a subset of `[1, fileLineCount]` and never indexes
outside it. -/
theorem c1_context_window (fileLines : List String) (t r : Int)
    (h1 : 1 ≤ t) (h2 : t ≤ (fileLines.length : Int)) (hr : 0 ≤ r) :
    getCodeContext fileLines t r =
      { code := String.intercalate "\n"
          (segment1 fileLines (max 1 (t - r)) (min (fileLines.length : Int) (t + r))),
        startLine := max 1 (t - r),
        targetLine := t }
    ∧ 1 ≤ max 1 (t - r)
    ∧ min ((fileLines.length : Int)) (t + r) ≤ (fileLines.length : Int)
    ∧ max 1 (t - r) ≤ min ((fileLines.length : Int)) (t + r) := by
  refine ⟨?_, by omega, by omega, by omega⟩
  simp only [getCodeContext, jsSlice, segment1]
  have c1 : ¬ (max 0 (t - r - 1) < 0) := by omega
  have c2 : ¬ (min (fileLines.length : Int) (t + r) < 0) := by omega
  rw [if_neg c1, if_neg c2]
  have e1 : (min (max 0 (t - r - 1)) (fileLines.length : Int)).toNat
      = (max 1 (t - r) - 1).toNat := by omega
  have e2 : (min (min (fileLines.length : Int) (t + r)) (fileLines.length : Int)
        - min (max 0 (t - r - 1)) (fileLines.length : Int)).toNat
      = (min (fileLines.length : Int) (t + r) - max 1 (t - r) + 1).toNat := by omega
  rw [e1, e2]
  simp only [CodeContext.mk.injEq]
  exact ⟨trivial, by omega, trivial⟩

/-- Concrete check of `c1_context_window` on a 4-line file with target
line 2 and radius 2: the window clips to lines 1–4. -/
theorem c1_context_window_witness :
    getCodeContext ["la", "lb", "lc", "ld"] 2 2 =
      { code := "la\nlb\nlc\nld", startLine := 1, targetLine := 2 } := by
  have h := (c1_context_window ["la", "lb", "lc", "ld"] 2 2
    (by decide) (by decide) (by decide)).1
  rw [h]
  rfl

/-- A character of the JavaScript whitespace class `\s` (the ASCII members;
the code paths of this repository only meet spaces and tabs). -/
def isWsChar (c : Char) : Bool :=
  c == ' ' || c == '\t' || c == '\n' || c == '\r' || c == '\x0b' || c == '\x0c'

/-- Consume an exact literal at the head of the input, returning the rest. -/
def eatLit : List Char → List Char → Option (List Char)
  | [], cs => some cs
  | _ :: _, [] => none
  | p :: ps, c :: cs => if c == p then eatLit ps cs else none

/-- JavaScript `String.prototype.startsWith` for a literal. -/
def startsWithLit (s pre : String) : Bool := (eatLit pre.toList s.toList).isSome

/-- Splitting on one separator character, keeping empty pieces — the tail
of JavaScript `s.split(sep)` for a one-character separator. -/
def splitCharAux (sep : Char) : List Char → List Char → List String
  | [], acc => [String.mk acc.reverse]
  | c :: cs, acc =>
    if c == sep then String.mk acc.reverse :: splitCharAux sep cs []
    else splitCharAux sep cs (c :: acc)

/-- JavaScript `s.split(sep)` for a one-character separator: every
occurrence splits, empty pieces are kept, the empty string yields
`[""]`. -/
def jsSplitChar (s : String) (sep : Char) : List String :=
  splitCharAux sep s.toList []

/-- JavaScript `String.prototype.trim`: strip whitespace from both
ends. -/
def jsTrim (s : String) : String :=
  String.mk (((s.toList.dropWhile isWsChar).reverse.dropWhile isWsChar).reverse)

/-- A commit record as assembled by `parseBlameOutput` (source lines
59–94): the identity hash plus metadata captured from `author `,
`author-time ` and `summary ` lines — absent until seen, like absent
JavaScript object properties. -/
structure CommitRecord where
  hash : String
  author : Option String := none
  timestamp : Option Int := none
  summary : Option String := none
  deriving Repr, DecidableEq

/-- A character of the regex class `[0-9a-f]`. -/
def isHexLower (c : Char) : Bool :=
  ('0' ≤ c && c ≤ '9') || ('a' ≤ c && c ≤ 'f')

/-- The test `line.match(/^[0-9a-f]{40}/)` (source line 65): the line
starts with forty lowercase hexadecimal characters. -/
def isHashLine (line : String) : Bool :=
  decide (40 ≤ line.length) && (line.toList.take 40).all isHexLower

/-- `line.split(' ')[0]` (source line 69): the text before the first
space, the whole line when it has no space. -/
def firstToken (line : String) : String :=
  String.mk (line.toList.takeWhile (fun c => c != ' '))

/-- Value of the maximal decimal-digit run at the head of a character
list; `none` when the first character is not a digit. -/
def digitsPrefix : List Char → Option Nat → Option Nat
  | [], acc => acc
  | c :: cs, acc =>
    if c.isDigit then digitsPrefix cs (some ((acc.getD 0) * 10 + (c.toNat - 48)))
    else acc

/-- `parseInt(s)` as applied to `author-time` values (source line 73):
skip leading whitespace, read an optional sign and a maximal run of
decimal digits; `NaN` (here `none`) when no digit is found. -/
def jsParseInt (s : String) : Option Int :=
  let cs := s.toList.dropWhile isWsChar
  match cs with
  | '-' :: rest => (digitsPrefix rest none).map (fun n => -(n : Int))
  | '+' :: rest => (digitsPrefix rest none).map (fun n => (n : Int))
  | _ => (digitsPrefix cs none).map (fun n => (n : Int))

/-- The line loop of `parseBlameOutput` (source lines 64–81). `current`
is the in-progress entry (`currentCommit`; `none` stands for the initial
hash-less object, whose metadata is never emitted because flushing
requires a hash).  A hash line flushes the previous entry and starts a new
one from the first space-separated token of the line; `author `,
`author-time ` and `summary ` lines update the current entry; the final
entry is flushed at end of input. -/
def rawLoop : Option CommitRecord → List String → List CommitRecord
  | current, [] => (match current with | some c => [c] | none => [])
  | current, line :: rest =>
    if isHashLine line then
      (match current with | some c => [c] | none => [])
        ++ rawLoop (some { hash := firstToken line }) rest
    else if startsWithLit line "author " then
      rawLoop (current.map (fun c => { c with author := some (line.drop 7) })) rest
    else if startsWithLit line "author-time " then
      rawLoop (current.map (fun c => { c with timestamp := jsParseInt (line.drop 12) })) rest
    else if startsWithLit line "summary " then
      rawLoop (current.map (fun c => { c with summary := some (line.drop 8) })) rest
    else
      rawLoop current rest

/-- The flushed (pre-deduplication) entry sequence of `parseBlameOutput`
— the `commits` array at source line 82. -/
def rawParse (lines : List String) : List CommitRecord := rawLoop none lines

/-- The dedup loop of `parseBlameOutput` (source lines 83–91): walk the
flushed entries keeping a `seen` set of hashes, appending each entry whose
hash has not been seen yet. -/
def dedupLoop : List CommitRecord → List CommitRecord → List String → List CommitRecord
  | [], acc, _ => acc
  | c :: rest, acc, seen =>
    if c.hash ∈ seen then dedupLoop rest acc seen
    else dedupLoop rest (acc ++ [c]) (seen ++ [c.hash])

/-- Deduplication by hash, first occurrence kept (source lines 83–93). -/
def dedupByHash (cs : List CommitRecord) : List CommitRecord := dedupLoop cs [] []

/-- `parseBlameOutput(output)` (source lines 59–94): split on newlines,
build entries, deduplicate by hash keeping first-seen order. -/
def parseBlameOutput (output : String) : List CommitRecord :=
  dedupByHash (rawParse (jsSplitChar output '\n'))

/-- Specification-side first-occurrence deduplication of a hash list,
relative to an already-seen set. -/
def firstSeenFrom (seen : List String) : List String → List String
  | [] => []
  | h :: t =>
    if h ∈ seen then firstSeenFrom seen t
    else h :: firstSeenFrom (seen ++ [h]) t

theorem dedupLoop_map_hash (cs : List CommitRecord) :
    ∀ acc seen, acc.map CommitRecord.hash = seen →
      (dedupLoop cs acc seen).map CommitRecord.hash
        = seen ++ firstSeenFrom seen (cs.map CommitRecord.hash) := by
  induction cs with
  | nil => intro acc seen h; simp [dedupLoop, firstSeenFrom, h]
  | cons c rest ih =>
    intro acc seen h
    by_cases hc : c.hash ∈ seen
    · simp only [dedupLoop, if_pos hc, List.map_cons, firstSeenFrom]
      exact ih acc seen h
    · simp only [dedupLoop, if_neg hc, List.map_cons, firstSeenFrom]
      rw [ih (acc ++ [c]) (seen ++ [c.hash]) (by simp [h])]
      simp

theorem firstSeenFrom_nodup (l : List String) :
    ∀ seen, seen.Nodup → (seen ++ firstSeenFrom seen l).Nodup := by
  induction l with
  | nil => intro seen h; simpa [firstSeenFrom]
  | cons x t ih =>
    intro seen h
    by_cases hx : x ∈ seen
    · simpa [firstSeenFrom, hx] using ih seen h
    · have h2 : (seen ++ [x]).Nodup := by
        simp [List.nodup_append, h, hx]
      have h3 := ih (seen ++ [x]) h2
      simp only [firstSeenFrom, if_neg hx]
      simpa [List.append_assoc] using h3

theorem firstSeenFrom_mem (l : List String) :
    ∀ seen x, (x ∈ seen ++ firstSeenFrom seen l) ↔ (x ∈ seen ∨ x ∈ l) := by
  induction l with
  | nil => intro seen x; simp [firstSeenFrom]
  | cons hd t ih =>
    intro seen x
    by_cases hh : hd ∈ seen
    · simp only [firstSeenFrom, if_pos hh]
      rw [ih seen x]
      simp only [List.mem_cons]
      constructor
      · tauto
      · rintro (h1 | h2 | h3)
        · exact Or.inl h1
        · subst h2; exact Or.inl hh
        · exact Or.inr h3
    · simp only [firstSeenFrom, if_neg hh]
      have h4 := ih (seen ++ [hd]) x
      have h5 : seen ++ hd :: firstSeenFrom (seen ++ [hd]) t
          = (seen ++ [hd]) ++ firstSeenFrom (seen ++ [hd]) t := by
        simp
      rw [h5, h4]
      simp only [List.mem_append, List.mem_singleton, List.mem_cons]
      tauto

/-- C2: for every blame-output string, `parseBlameOutput` yields a
sequence of commit records in which each unique hash appears exactly once,
in first-seen order — the order entries were flushed from the input, where
a line beginning with a 40-hex token starts a new entry and flushes the
previous one, metadata comes from `author `/`author-time `/`summary `
lines, and the final entry is flushed at end of input (`rawParse`). -/
theorem c2_history_dedup_first_seen (output : String) :
    ((parseBlameOutput output).map CommitRecord.hash).Nodup
    ∧ (parseBlameOutput output).map CommitRecord.hash
        = firstSeenFrom [] ((rawParse (jsSplitChar output '\n')).map CommitRecord.hash)
    ∧ ∀ h, h ∈ (parseBlameOutput output).map CommitRecord.hash
        ↔ h ∈ (rawParse (jsSplitChar output '\n')).map CommitRecord.hash := by
  have hmap := dedupLoop_map_hash (rawParse (jsSplitChar output '\n')) [] [] rfl
  refine ⟨?_, ?_, ?_⟩
  · rw [parseBlameOutput, dedupByHash, hmap]
    simpa using firstSeenFrom_nodup
      ((rawParse (jsSplitChar output '\n')).map CommitRecord.hash) [] (by simp)
  · simpa [parseBlameOutput, dedupByHash] using hmap
  · intro h
    rw [parseBlameOutput, dedupByHash, hmap]
    simpa using firstSeenFrom_mem
      ((rawParse (jsSplitChar output '\n')).map CommitRecord.hash) [] h

/-- A character of the regex word class `\w`. -/
def isWordChar (c : Char) : Bool := c.isAlpha || c.isDigit || c == '_'

/-- Consume `\s+` (one or more whitespace characters, greedily). -/
def eatWs1 : List Char → Option (List Char)
  | [] => none
  | c :: cs => if isWsChar c then some (cs.dropWhile isWsChar) else none

/-- Match of `function\s+NAME\s*\(` at the current position
(`findFunction` pattern 1, source line 167). -/
def patFunctionDecl (name : List Char) (cs : List Char) : Bool :=
  match eatLit "function".toList cs with
  | none => false
  | some r1 =>
    match eatWs1 r1 with
    | none => false
    | some r2 =>
      match eatLit name r2 with
      | none => false
      | some r3 => (eatLit ['('] (r3.dropWhile isWsChar)).isSome

/-- Match of `const\s+NAME\s*=` at the current position
(`findFunction` pattern 2, source line 168). -/
def patConstBind (name : List Char) (cs : List Char) : Bool :=
  match eatLit "const".toList cs with
  | none => false
  | some r1 =>
    match eatWs1 r1 with
    | none => false
    | some r2 =>
      match eatLit name r2 with
      | none => false
      | some r3 => (eatLit ['='] (r3.dropWhile isWsChar)).isSome

/-- Match of `def\s+NAME\s*\(` at the current position
(`findFunction` pattern 3, source line 169). -/
def patPyDef (name : List Char) (cs : List Char) : Bool :=
  match eatLit "def".toList cs with
  | none => false
  | some r1 =>
    match eatWs1 r1 with
    | none => false
    | some r2 =>
      match eatLit name r2 with
      | none => false
      | some r3 => (eatLit ['('] (r3.dropWhile isWsChar)).isSome

/-- Match of `func\s+NAME\s*\(` at the current position
(`findFunction` pattern 4, source line 170). -/
def patGoFunc (name : List Char) (cs : List Char) : Bool :=
  match eatLit "func".toList cs with
  | none => false
  | some r1 =>
    match eatWs1 r1 with
    | none => false
    | some r2 =>
      match eatLit name r2 with
      | none => false
      | some r3 => (eatLit ['('] (r3.dropWhile isWsChar)).isSome

/-- Match of `NAME\s*:\s*function` at the current position; the leading
`\b` of pattern 5 (source line 171) is checked by the caller. -/
def patMethodColon (name : List Char) (cs : List Char) : Bool :=
  match eatLit name cs with
  | none => false
  | some r1 =>
    match eatLit [':'] (r1.dropWhile isWsChar) with
    | none => false
    | some r2 => (eatLit "function".toList (r2.dropWhile isWsChar)).isSome

/-- Unanchored regex search: try the position matcher at every suffix. -/
def searchAt (p : List Char → Bool) : List Char → Bool
  | [] => p []
  | c :: cs => p (c :: cs) || searchAt p cs

/-- Unanchored search for a pattern opening with `\b`: the position
matcher fires only where the previous character is not a word character. -/
def searchBoundary (p : List Char → Bool) : Bool → List Char → Bool
  | prevWord, [] => !prevWord && p []
  | prevWord, c :: cs => (!prevWord && p (c :: cs)) || searchBoundary p (isWordChar c) cs

/-- One line of the `findFunction` scan (source lines 174–180): the line
matches when any of the five patterns fires.  The source interpolates the
function name into the regexes verbatim; names are ordinary identifiers,
matched here literally. -/
def lineMatchesName (name : String) (line : String) : Bool :=
  let n := name.toList
  let cs := line.toList
  searchAt (patFunctionDecl n) cs || searchAt (patConstBind n) cs ||
  searchAt (patPyDef n) cs || searchAt (patGoFunc n) cs ||
  searchBoundary (patMethodColon n) false cs

/-- The scan loop of `findFunction` over 0-based line indices. -/
def findFunctionLoop (name : String) : List String → Nat → Option Nat
  | [], _ => none
  | l :: rest, i =>
    if lineMatchesName name l then some (i + 1) else findFunctionLoop name rest (i + 1)

/-- `findFunction(filePath, functionName)` (source lines 162–183): the
1-based number of the first line matching any pattern; `none` models the
`Function "..." not found` throw. -/
def findFunction (fileLines : List String) (name : String) : Option Nat :=
  findFunctionLoop name fileLines 0

/-- The character loop of the function-end heuristic (source lines
216–227): update the brace counter over one line's characters; stop and
report `some (lineIdx + 1)` once at least one opening brace has been seen
and the counter returns to zero, leaving the rest of the line unscanned. -/
def scanChars (cs : List Char) (bc : Int) (st : Bool) (lineIdx : Int) :
    Int × Bool × Option Int :=
  match cs with
  | [] => (bc, st, none)
  | c :: rest =>
    if c == '\x7b' then scanChars rest (bc + 1) true lineIdx
    else if c == '\x7d' then
      if st ∧ bc - 1 = 0 then (bc - 1, st, some (lineIdx + 1))
      else scanChars rest (bc - 1) st lineIdx
    else scanChars rest bc st lineIdx

/-- The line loop of the function-end heuristic (source lines 215–229):
`te` is the mutable `targetEndLine`, initially the caller-supplied end
line.  After each line the loop stops as soon as `targetEndLine` is truthy
— whether it was just set by a balanced closure or was already truthy on
entry. -/
def braceLoop : List String → Int → Int → Bool → Option Int → Option Int
  | [], _, _, _, te => te
  | l :: rest, i, bc, st, te =>
    let r := scanChars l.toList bc st i
    let te' := match r.2.2 with
      | some v => some v
      | none => te
    if truthyNum te' then te' else braceLoop rest (i + 1) r.1 r.2.1 te'

/-- The resolved analysis target of `explain` (source lines 204–230):
`targetLine` / `targetEndLine` after the function-name branch. -/
structure ResolvedTarget where
  targetLine : Option Int
  targetEndLine : Option Int
  deriving Repr, DecidableEq

/-- Pipeline failure kinds, one constructor per distinct `throw` in the
source, each carrying the data interpolated into its message. -/
inductive Err where
  | fileNotFound (path : String)
  | notGitRepo
  | notTracked (path : String)
  | functionNotFound (name : String) (path : String)
  | blameFailed (msg : String)
  | noHistory
  | detailsFailed (msg : String)
  | noApiKey
  | onlyAnthropicSupported
  | aiFailed (msg : String)
  deriving Repr, DecidableEq

/-- The target-resolution step of `explain` (source lines 204–230): with a
truthy function name, `targetLine` is overwritten by `findFunction` and
the brace heuristic runs, seeded with the caller-supplied `endLine`;
otherwise the supplied line and end line pass through unchanged. -/
def resolveTarget (fileLines : List String) (filePath : String)
    (lineNumber endLine : Option Int) (functionName : Option String) :
    Except Err ResolvedTarget :=
  match functionName with
  | none => .ok { targetLine := lineNumber, targetEndLine := endLine }
  | some name =>
    if name = "" then .ok { targetLine := lineNumber, targetEndLine := endLine }
    else
      match findFunction fileLines name with
      | none => .error (Err.functionNotFound name filePath)
      | some defLine =>
        .ok { targetLine := some (defLine : Int),
              targetEndLine :=
                braceLoop (fileLines.drop (defLine - 1)) ((defLine : Int) - 1) 0 false endLine }

/-- C4 counterexample: with function name `foo`, on a file whose function
spans lines 1–3, a supplied end line 20 takes part in the result — the
brace scan is cut short after the definition line and the resolved range
becomes `[1, 20]`, while without the supplied end line the Locator derives
`[1, 3]`.  This refutes the claim that an explicitly supplied line or end
line plays no part in the resolved range. -/
theorem c4_supplied_end_line_leaks :
    resolveTarget ["function foo() \x7b", "x", "\x7d"] "f.js" (some 7) (some 20) (some "foo")
      = .ok { targetLine := some 1, targetEndLine := some 20 }
    ∧ resolveTarget ["function foo() \x7b", "x", "\x7d"] "f.js" (some 7) none (some "foo")
      = .ok { targetLine := some 1, targetEndLine := some 3 } := by
  constructor
  · rfl
  · rfl

/-- C4 (amended): with a truthy function name, the resolved start line is
derived solely by the Function Locator — the supplied line number plays no
part — but a supplied end line does take part: it seeds the brace scan
(halting it once truthy) and can survive as the resolved end line.  When
no end line is supplied and the brace scan finds no balanced closure
before end of file, the range collapses to the single definition line (no
end line), as a degrade rather than an error. -/
theorem c4_locator_resolution_amended (fileLines : List String) (name filePath : String)
    (ln1 ln2 el : Option Int) (d : Nat)
    (hn : name ≠ "") (hf : findFunction fileLines name = some d) :
    resolveTarget fileLines filePath ln1 el (some name)
      = resolveTarget fileLines filePath ln2 el (some name)
    ∧ resolveTarget fileLines filePath ln1 el (some name)
      = .ok { targetLine := some (d : Int),
              targetEndLine :=
                braceLoop (fileLines.drop (d - 1)) ((d : Int) - 1) 0 false el }
    ∧ (braceLoop (fileLines.drop (d - 1)) ((d : Int) - 1) 0 false none = none →
        resolveTarget fileLines filePath ln1 none (some name)
          = .ok { targetLine := some (d : Int), targetEndLine := none }) := by
  refine ⟨?_, ?_, ?_⟩
  · simp [resolveTarget, hn, hf]
  · simp [resolveTarget, hn, hf]
  · intro hb
    simp [resolveTarget, hn, hf, hb]

/-- Concrete check of `c4_locator_resolution_amended`: an unclosed
function definition collapses to the single definition line, regardless
of the supplied line number. -/
theorem c4_locator_resolution_amended_witness :
    resolveTarget ["function foo() \x7b"] "f.js" (some 9) none (some "foo")
      = .ok { targetLine := some 1, targetEndLine := none } := by
  have h := (c4_locator_resolution_amended ["function foo() \x7b"] "foo" "f.js"
    (some 9) (some 2) none 1 (by decide) (by rfl)).2.2
  exact h (by rfl)

/-- The `-L` argument shape of the blame command built by `getBlame`
(source lines 43–47): no `-L` (whole file), the comma-less `-L l`
(`single`), or `-L l,e` (`lineRange`).  Note that git gives the comma-less
form span semantics — `-L l` attributes line `l` through the END OF FILE,
not the single line `l` (see `gitAttributes`). -/
inductive BlameSpan where
  | wholeFile
  | single (l : Int)
  | lineRange (l e : Int)
  deriving Repr, DecidableEq

/-- The exact blame command string built by `getBlame` (source lines
43–47), template interpolation included. -/
def blameCmd (filePath : String) (lineNumber endLine : Option Int) : String :=
  if truthyNum lineNumber then
    let range :=
      if truthyNum endLine then
        toString (lineNumber.getD 0) ++ "," ++ toString (endLine.getD 0)
      else toString (lineNumber.getD 0)
    "git blame -w --line-porcelain -L " ++ range ++ " \"" ++ filePath ++ "\""
  else
    "git blame -w --line-porcelain \"" ++ filePath ++ "\""

/-- Which lines of a `fileLineCount`-line file a blame invocation
attributes, following git's documented `-L` semantics (behavior of git
2.39.2): `-L s,e` covers the inclusive range clipped to the file, and the
comma-less `-L s` covers `s` through the end of the file — an omitted end
bound defaults to the last line, it does not default to `s`. -/
def gitAttributes (fileLineCount : Int) : BlameSpan → Int → Bool
  | .wholeFile, k => decide (1 ≤ k ∧ k ≤ fileLineCount)
  | .single l, k => decide (l ≤ k ∧ k ≤ fileLineCount)
  | .lineRange l e, k => decide (l ≤ k ∧ k ≤ min e fileLineCount)

/-- The span selection of `getBlame` (source lines 44–47) with the
JavaScript truthiness tests `if (lineNumber)` and `endLine ? ... : ...`:
a falsy line number attributes the whole file; a truthy line number with a
falsy end line that single line; both truthy the inclusive range. -/
def blameSpan : Option Int → Option Int → BlameSpan
  | none, _ => .wholeFile
  | some l, none => if l = 0 then .wholeFile else .single l
  | some l, some e =>
    if l = 0 then .wholeFile
    else if e = 0 then .single l
    else .lineRange l e

/-- Observable external actions of one pipeline run, in order. -/
inductive Event where
  | blameRun (span : BlameSpan)
  | detailFetch (hash : String)
  | contextBuild (line : Int)
  | aiCall
  deriving Repr, DecidableEq

/-- The external world of one run: results of the git subprocess calls,
the target file's lines, the two API-key environment variables, the
date rendering of `toISOString().split('T')[0]`, and the AI endpoint. -/
structure World where
  fileExists : Bool
  gitRepoCheck : Bool
  lsFilesCheck : Bool
  fileLines : List String
  blameOut : BlameSpan → Except String String
  logMessage : String → Except String String
  showDiff : String → Except String String
  showNameStatus : String → Except String String
  anthropicKey : Option String
  openaiKey : Option String
  dateFmt : Option Int → String
  aiResponse : String → Except String String

/-- `getBlame(filePath, lineNumber, endLine)` (source lines 41–54): build
the span, run blame, parse; a subprocess failure is wrapped into
`Failed to get git blame: ...`.  The first component records the blame
invocation. -/
def getBlame (w : World) (lineNumber endLine : Option Int) :
    List Event × Except Err (List CommitRecord) :=
  let span := blameSpan lineNumber endLine
  ([Event.blameRun span],
   match w.blameOut span with
   | .error msg => .error (Err.blameFailed ("Failed to get git blame: " ++ msg))
   | .ok output => .ok (parseBlameOutput output))

/-- The record stored by `getCommitDetails` (source line 105): full
message (trimmed), full diff, name-status file list — nothing truncated. -/
structure CommitDetail where
  message : String
  diff : String
  files : String
  deriving Repr, DecidableEq

/-- `getCommitDetails(hash)` (source lines 99–109): three sequential git
calls inside one try; the first failure aborts and is wrapped into
`Failed to get commit details: ...`.  The diff is stored exactly as
returned by `git show`. -/
def getCommitDetails (w : World) (hash : String) : Except String CommitDetail :=
  match w.logMessage hash with
  | .error m => .error ("Failed to get commit details: " ++ m)
  | .ok msg =>
    match w.showDiff hash with
    | .error m => .error ("Failed to get commit details: " ++ m)
    | .ok d =>
      match w.showNameStatus hash with
      | .error m => .error ("Failed to get commit details: " ++ m)
      | .ok f => .ok { message := jsTrim msg, diff := d, files := f }

/-- A blame record merged with its fetched details — the spread
`{ ...c, ...details }` at source lines 243–246 (key sets are disjoint). -/
structure CommitFull where
  hash : String
  author : Option String
  timestamp : Option Int
  summary : Option String
  message : String
  diff : String
  files : String
  deriving Repr, DecidableEq

/-- The object spread `{ ...c, ...details }` (source lines 243–246). -/
def mergeCommit (c : CommitRecord) (d : CommitDetail) : CommitFull :=
  { hash := c.hash, author := c.author, timestamp := c.timestamp, summary := c.summary,
    message := d.message, diff := d.diff, files := d.files }

/-- The `relevantCommits.map(...)` detail-fetch loop of `explain` (source
lines 241–247): sequential, one `getCommitDetails` per record; the first
throw aborts the map.  The first component records the fetches attempted,
in order, the failing one included. -/
def fetchLoop (w : World) : List CommitRecord → List Event × Except Err (List CommitFull)
  | [] => ([], .ok [])
  | c :: rest =>
    match getCommitDetails w c.hash with
    | .error msg => ([Event.detailFetch c.hash], .error (Err.detailsFailed msg))
    | .ok d =>
      (Event.detailFetch c.hash :: (fetchLoop w rest).1,
       (fetchLoop w rest).2.map (fun ds => mergeCommit c d :: ds))

/-- JavaScript template interpolation of a possibly-undefined string. -/
def jsShow : Option String → String
  | some s => s
  | none => "undefined"

/-- One commit section of the prompt (source lines 314–326): header with
1-based index and 8-character hash, author, rendered date, full message,
and the diff truncated to its first 100 lines. -/
def commitBlock (dateFmt : Option Int → String) (i : Nat) (c : CommitFull) : String :=
  "\n## Commit " ++ toString (i + 1) ++ ": " ++ c.hash.take 8 ++
  "\nAuthor: " ++ jsShow c.author ++
  "\nDate: " ++ dateFmt c.timestamp ++
  "\nMessage: " ++ c.message ++
  "\n\nRelevant changes:\n```\n" ++
  String.intercalate "\n" ((jsSplitChar c.diff '\n').take 100) ++
  "\n```\n"

/-- `buildPrompt(context)` (source lines 311–355). -/
def buildPrompt (dateFmt : Option Int → String) (file : String) (lineNumber : Option Int)
    (functionName : Option String) (code : String) (commits : List CommitFull) : String :=
  let commitInfo := String.intercalate "\n"
    (commits.enum.map (fun p => commitBlock dateFmt p.1 p.2))
  let target :=
    if truthyStr functionName then "function \"" ++ (functionName.getD "") ++ "\""
    else if truthyNum lineNumber then "line " ++ toString (lineNumber.getD 0)
    else "this code"
  "You are a code archaeologist analyzing git history to explain why code exists.\n\nFile: "
    ++ file ++ "\nTarget: " ++ target ++ "\n\nCurrent code:\n```\n" ++ code
    ++ "\n```\n\nGit history (most recent first):\n" ++ commitInfo
    ++ "\n\nTask: Explain WHY this code exists. Focus on:\n1. What problem was it solving?\n2. Why was this approach chosen?\n3. What changed over time?\n4. Any important context from commits?\n\nBe concise but insightful. Write like a developer explaining to another developer, not a formal report.\nFormat: 2-3 paragraphs, no bullet points unless listing multiple reasons."

/-- The structured bundle handed to the AI call (source lines 253–259). -/
structure AnalysisContext where
  file : String
  lineNumber : Option Int
  functionName : Option String
  code : String
  commits : List CommitFull
  deriving Repr, DecidableEq

/-- `callAI(context)` (source lines 274–306): require a truthy
`ANTHROPIC_API_KEY` or `OPENAI_API_KEY`, then specifically a truthy
`ANTHROPIC_API_KEY`, build the prompt and call the endpoint; an endpoint
failure is wrapped into `AI API call failed: ...`. -/
def callAI (w : World) (ctx : AnalysisContext) : List Event × Except Err String :=
  if truthyStr w.anthropicKey = false ∧ truthyStr w.openaiKey = false then
    ([], .error Err.noApiKey)
  else if truthyStr w.anthropicKey = false then
    ([], .error Err.onlyAnthropicSupported)
  else
    let prompt := buildPrompt w.dateFmt ctx.file ctx.lineNumber ctx.functionName
      ctx.code ctx.commits
    match w.aiResponse prompt with
    | .error msg => ([Event.aiCall], .error (Err.aiFailed ("AI API call failed: " ++ msg)))
    | .ok t => ([Event.aiCall], .ok t)

/-- `targetLine || 1` (source line 250): a falsy target line becomes 1. -/
def jsOrOne : Option Int → Int
  | none => 1
  | some l => if l = 0 then 1 else l

/-- The value of a successful `explain` (source lines 264–268). -/
structure ExplainResult where
  context : AnalysisContext
  explanation : String
  commits : List CommitFull
  deriving Repr, DecidableEq

/-- `explain(filePath, options)` (source lines 188–269): validate file
existence, repository, trackedness; resolve the target; blame; reject an
empty history; fetch details of the first five records; build the code
context around `targetLine || 1` with radius 5; call the AI.  The first
component is the trace of external actions in program order, up to the
point of failure. -/
def explain (w : World) (filePath : String) (lineNumber endLine : Option Int)
    (functionName : Option String) : List Event × Except Err ExplainResult :=
  if w.fileExists = false then ([], .error (Err.fileNotFound filePath))
  else if w.gitRepoCheck = false then ([], .error Err.notGitRepo)
  else if w.lsFilesCheck = false then ([], .error (Err.notTracked filePath))
  else
    match resolveTarget w.fileLines filePath lineNumber endLine functionName with
    | .error e => ([], .error e)
    | .ok rt =>
      let blamed := getBlame w rt.targetLine rt.targetEndLine
      match blamed.2 with
      | .error e => (blamed.1, .error e)
      | .ok commits =>
        if commits.length = 0 then (blamed.1, .error Err.noHistory)
        else
          let fetched := fetchLoop w (commits.take 5)
          match fetched.2 with
          | .error e => (blamed.1 ++ fetched.1, .error e)
          | .ok commitDetails =>
            let ctxLine := jsOrOne rt.targetLine
            let context := getCodeContext w.fileLines ctxLine 5
            let analysisContext : AnalysisContext :=
              { file := filePath, lineNumber := rt.targetLine,
                functionName := functionName,
                code := context.code, commits := commitDetails }
            let ai := callAI w analysisContext
            match ai.2 with
            | .error e =>
              (blamed.1 ++ fetched.1 ++ (Event.contextBuild ctxLine :: ai.1), .error e)
            | .ok expl =>
              (blamed.1 ++ fetched.1 ++ (Event.contextBuild ctxLine :: ai.1),
               .ok { context := analysisContext, explanation := expl,
                     commits := commitDetails })

/-- A convenient default world for concrete runs: validations pass, every
external call fails, no API keys. -/
def baseWorld : World :=
  { fileExists := true, gitRepoCheck := true, lsFilesCheck := true,
    fileLines := [],
    blameOut := fun _ => Except.error "no blame",
    logMessage := fun _ => Except.error "missing",
    showDiff := fun _ => Except.error "missing",
    showNameStatus := fun _ => Except.error "missing",
    anthropicKey := none, openaiKey := none,
    dateFmt := fun _ => "1970-01-01",
    aiResponse := fun _ => Except.error "network" }

/-- C7: `explain` validates in this order, each failure distinct and
terminal: file existence (file-not-found), then repository
(not-a-repository), then trackedness (not-tracked); an untracked file
inside a valid repository fails with not-tracked, distinct from
not-a-repository. -/
theorem c7_validation_order (w : World) (fp : String) (ln el : Option Int)
    (fn : Option String) :
    (w.fileExists = false → explain w fp ln el fn = ([], .error (Err.fileNotFound fp)))
    ∧ (w.fileExists = true → w.gitRepoCheck = false →
        explain w fp ln el fn = ([], .error Err.notGitRepo))
    ∧ (w.fileExists = true → w.gitRepoCheck = true → w.lsFilesCheck = false →
        explain w fp ln el fn = ([], .error (Err.notTracked fp)))
    ∧ Err.fileNotFound fp ≠ Err.notGitRepo
    ∧ Err.notTracked fp ≠ Err.notGitRepo
    ∧ Err.fileNotFound fp ≠ Err.notTracked fp := by
  refine ⟨?_, ?_, ?_, fun h => Err.noConfusion h, fun h => Err.noConfusion h,
    fun h => Err.noConfusion h⟩
  · intro h; simp [explain, h]
  · intro h1 h2; simp [explain, h1, h2]
  · intro h1 h2 h3; simp [explain, h1, h2, h3]

/-- Concrete check of `c7_validation_order`: an untracked file inside a
valid repository fails with not-tracked. -/
theorem c7_validation_order_witness :
    explain { baseWorld with lsFilesCheck := false } "u.js" none none none
      = ([], .error (Err.notTracked "u.js")) := by
  have h := (c7_validation_order { baseWorld with lsFilesCheck := false }
    "u.js" none none none).2.2.1
  exact h rfl rfl rfl

/-- C8 (code bug): with only a start line, `getBlame` builds the
comma-less argument `git blame -w --line-porcelain -L 2 "f.js"`, and under
git's `-L` semantics that attributes line 2 through the end of the file —
on a 5-line file it covers lines 2, 3, 4 and 5, not exactly the single
line 2 that the spec's History Extractor contract states.  The other two
cases behave as claimed: both bounds give `-L 2,4` (the inclusive range)
and no bounds give no `-L` (the whole file). -/
theorem c8_single_bound_spans_to_eof :
    blameCmd "f.js" (some 2) none = "git blame -w --line-porcelain -L 2 \"f.js\""
    ∧ blameSpan (some 2) none = BlameSpan.single 2
    ∧ (gitAttributes 5 (BlameSpan.single 2) 2 = true
       ∧ gitAttributes 5 (BlameSpan.single 2) 3 = true
       ∧ gitAttributes 5 (BlameSpan.single 2) 5 = true)
    ∧ ¬ (∀ k : Int, gitAttributes 5 (BlameSpan.single 2) k = true → k = 2)
    ∧ blameCmd "f.js" (some 2) (some 4) = "git blame -w --line-porcelain -L 2,4 \"f.js\""
    ∧ blameCmd "f.js" none none = "git blame -w --line-porcelain \"f.js\"" := by
  refine ⟨rfl, rfl, ⟨rfl, rfl, rfl⟩, ?_, rfl, rfl⟩
  intro h
  have h3 := h 3 (by decide)
  exact absurd h3 (by decide)

/-- World of a valid repository holding a tracked 156-line file, whose
blame command rejects the out-of-range request the way git does. -/
def c3World : World :=
  { baseWorld with
    fileLines := List.replicate 156 "const x = 1;",
    blameOut := fun _ => Except.error "fatal: file src/auth.js has only 156 lines" }

set_option maxRecDepth 8000 in
/-- C3 (code bug): requesting line 9999 on a tracked 156-line file does
NOT fail with an invalid-line-number validation before history extraction
— `explain` has no line-count check, the blame invocation does occur (it
is the first event of the trace), and the failure surfaced is the wrapped
blame extraction error. -/
theorem c3_out_of_range_reaches_blame :
    explain c3World "src/auth.js" (some 9999) none none
      = ([Event.blameRun (BlameSpan.single 9999)],
         .error (Err.blameFailed
           "Failed to get git blame: fatal: file src/auth.js has only 156 lines"))
    ∧ (c3World.fileLines.length : Int) < 9999 := by
  exact ⟨rfl, by decide⟩

theorem fetchLoop_events_le (w : World) (cs : List CommitRecord) :
    (fetchLoop w cs).1.length ≤ cs.length := by
  induction cs with
  | nil => simp [fetchLoop]
  | cons c rest ih =>
    cases hgd : getCommitDetails w c.hash with
    | error m => simp [fetchLoop, hgd]
    | ok d =>
      simp only [fetchLoop, hgd, List.length_cons]
      omega

theorem fetchLoop_ok (w : World) (cs : List CommitRecord) :
    ∀ ds, (fetchLoop w cs).2 = .ok ds →
      (fetchLoop w cs).1 = cs.map (fun c => Event.detailFetch c.hash)
      ∧ ds.map CommitFull.hash = cs.map CommitRecord.hash
      ∧ ds.length = cs.length := by
  induction cs with
  | nil =>
    intro ds h
    simp [fetchLoop] at h
    subst h
    exact ⟨rfl, rfl, rfl⟩
  | cons c rest ih =>
    intro ds h
    cases hgd : getCommitDetails w c.hash with
    | error m => simp [fetchLoop, hgd] at h
    | ok d =>
      simp only [fetchLoop, hgd] at h ⊢
      cases hr : (fetchLoop w rest).2 with
      | error e => simp [hr, Except.map] at h
      | ok ds' =>
        simp only [hr, Except.map] at h
        obtain ⟨ih1, ih2, ih3⟩ := ih ds' hr
        injection h with h
        subst h
        simp [ih1, ih2, ih3, mergeCommit]

theorem fetchLoop_ok_iff (w : World) (cs : List CommitRecord) :
    (∃ ds, (fetchLoop w cs).2 = .ok ds)
      ↔ ∀ c ∈ cs, ∃ d, getCommitDetails w c.hash = .ok d := by
  induction cs with
  | nil => simp [fetchLoop]
  | cons c rest ih =>
    cases hgd : getCommitDetails w c.hash with
    | error m =>
      simp [fetchLoop, hgd]
    | ok d =>
      simp only [fetchLoop, hgd, List.mem_cons]
      cases hr : (fetchLoop w rest).2 with
      | error e =>
        rw [hr] at ih
        constructor
        · rintro ⟨ds, hds⟩
          simp [Except.map] at hds
        · intro hall
          obtain ⟨ds, hds⟩ := ih.2 (fun x hx => hall x (Or.inr hx))
          exact absurd hds (by simp)
      | ok ds' =>
        rw [hr] at ih
        constructor
        · intro _ x hx
          rcases hx with hx | hx
          · subst hx; exact ⟨d, hgd⟩
          · exact (ih.1 ⟨ds', rfl⟩) x hx
        · intro _
          exact ⟨mergeCommit c d :: ds', by simp [Except.map]⟩

/-- C5: the pipeline fetches commit details for exactly the first
`min(5, length)` history records, in order, never more than 5; the fetch
map succeeds precisely when every one of those fetches succeeds, and an
individual fetch failure aborts the whole `explain` run with that
detail-fetch error (no partial success). -/
theorem c5_detail_fetch_cap (w : World) (commits : List CommitRecord) :
    (fetchLoop w (commits.take 5)).1.length ≤ 5
    ∧ (∀ ds, (fetchLoop w (commits.take 5)).2 = .ok ds →
        (fetchLoop w (commits.take 5)).1
          = (commits.take 5).map (fun c => Event.detailFetch c.hash)
        ∧ ds.map CommitFull.hash = (commits.take 5).map CommitRecord.hash
        ∧ ds.length = min 5 commits.length)
    ∧ ((∃ ds, (fetchLoop w (commits.take 5)).2 = .ok ds)
        ↔ ∀ c ∈ commits.take 5, ∃ d, getCommitDetails w c.hash = .ok d)
    ∧ (∀ (fp : String) (ln el : Option Int) (fn : Option String)
          (rt : ResolvedTarget) (output : String) (evs : List Event) (e : Err),
        w.fileExists = true → w.gitRepoCheck = true → w.lsFilesCheck = true →
        resolveTarget w.fileLines fp ln el fn = .ok rt →
        w.blameOut (blameSpan rt.targetLine rt.targetEndLine) = .ok output →
        parseBlameOutput output = commits →
        ¬ commits.length = 0 →
        fetchLoop w (commits.take 5) = (evs, .error e) →
        explain w fp ln el fn
          = (Event.blameRun (blameSpan rt.targetLine rt.targetEndLine) :: evs, .error e)) := by
  refine ⟨?_, ?_, fetchLoop_ok_iff w (commits.take 5), ?_⟩
  · have h := fetchLoop_events_le w (commits.take 5)
    have h2 : (commits.take 5).length ≤ 5 := by
      simp [List.length_take]
    omega
  · intro ds hds
    obtain ⟨h1, h2, h3⟩ := fetchLoop_ok w (commits.take 5) ds hds
    refine ⟨h1, h2, ?_⟩
    rw [h3]
    simp [List.length_take]
  · intro fp ln el fn rt output evs e hfe hgr hls hrt hb hpo hne hfl
    simp [explain, hfe, hgr, hls, hrt, getBlame, hb, hpo, hne, hfl]

/-- World where every detail fetch succeeds. -/
def c5WorldOk : World :=
  { baseWorld with
    logMessage := fun _ => Except.ok "m",
    showDiff := fun _ => Except.ok "d",
    showNameStatus := fun _ => Except.ok "f" }

/-- A 7-record history, more than the cap of 5. -/
def c5Commits : List CommitRecord :=
  [{ hash := "h1" }, { hash := "h2" }, { hash := "h3" }, { hash := "h4" },
   { hash := "h5" }, { hash := "h6" }, { hash := "h7" }]

/-- A 40-hex commit identity used in concrete blame outputs. -/
def hash40 : String := "aaaaaaaaaaaaaaaaaaaaaaaaaaaaaaaaaaaaaaaa"

/-- A one-commit porcelain blame output. -/
def c5BlameStr : String :=
  hash40 ++ " 1 1 1\nauthor Alice\nsummary add\n\tcode"

/-- World whose blame yields one commit but whose detail fetch fails. -/
def c5WorldErr : World :=
  { baseWorld with
    blameOut := fun _ => Except.ok c5BlameStr,
    logMessage := fun _ => Except.error "bad object" }

/-- Concrete check of `c5_detail_fetch_cap`: with 7 history records only
the first 5 details are fetched, in order; and a failing detail fetch
aborts the whole `explain` run with the detail-fetch error. -/
theorem c5_detail_fetch_cap_witness :
    (fetchLoop c5WorldOk (c5Commits.take 5)).1
      = [Event.detailFetch "h1", Event.detailFetch "h2", Event.detailFetch "h3",
         Event.detailFetch "h4", Event.detailFetch "h5"]
    ∧ explain c5WorldErr "f.js" (some 1) none none
      = ([Event.blameRun (BlameSpan.single 1), Event.detailFetch hash40],
         .error (Err.detailsFailed "Failed to get commit details: bad object")) := by
  constructor
  · have h := ((c5_detail_fetch_cap c5WorldOk c5Commits).2.1
      [{ hash := "h1", author := none, timestamp := none, summary := none,
         message := "m", diff := "d", files := "f" },
       { hash := "h2", author := none, timestamp := none, summary := none,
         message := "m", diff := "d", files := "f" },
       { hash := "h3", author := none, timestamp := none, summary := none,
         message := "m", diff := "d", files := "f" },
       { hash := "h4", author := none, timestamp := none, summary := none,
         message := "m", diff := "d", files := "f" },
       { hash := "h5", author := none, timestamp := none, summary := none,
         message := "m", diff := "d", files := "f" }] rfl).1
    rw [h]
    rfl
  · have h := (c5_detail_fetch_cap c5WorldErr (parseBlameOutput c5BlameStr)).2.2.2
      "f.js" (some 1) none none { targetLine := some 1, targetEndLine := none }
      c5BlameStr [Event.detailFetch hash40]
      (Err.detailsFailed "Failed to get commit details: bad object")
      rfl rfl rfl rfl rfl rfl (by decide) rfl
    rw [h]
    rfl

/-- C6: `getCommitDetails` stores the full, untruncated diff exactly as
returned by `git show`; the 100-line truncation appears only in the
per-commit block that `buildPrompt` hands to the AI collaborator, applied
to the stored diff at that boundary. -/
theorem c6_truncation_only_at_boundary (w : World) (hash m d f : String)
    (h1 : w.logMessage hash = .ok m) (h2 : w.showDiff hash = .ok d)
    (h3 : w.showNameStatus hash = .ok f) :
    getCommitDetails w hash = .ok { message := jsTrim m, diff := d, files := f }
    ∧ ∀ (dateFmt : Option Int → String) (i : Nat) (c : CommitFull), c.diff = d →
        commitBlock dateFmt i c =
          "\n## Commit " ++ toString (i + 1) ++ ": " ++ c.hash.take 8 ++
          "\nAuthor: " ++ jsShow c.author ++
          "\nDate: " ++ dateFmt c.timestamp ++
          "\nMessage: " ++ c.message ++
          "\n\nRelevant changes:\n```\n" ++
          String.intercalate "\n" ((jsSplitChar d '\n').take 100) ++
          "\n```\n" := by
  refine ⟨?_, ?_⟩
  · simp [getCommitDetails, h1, h2, h3]
  · intro dateFmt i c hc
    simp [commitBlock, hc]

/-- A 150-line diff (149 newlines), above the 100-line cap. -/
def diff150 : String := String.intercalate "\n" (List.replicate 150 "+x")

/-- World whose `git show` yields the 150-line diff. -/
def c6World : World :=
  { baseWorld with
    logMessage := fun _ => Except.ok "msg",
    showDiff := fun _ => Except.ok diff150,
    showNameStatus := fun _ => Except.ok "fls" }

set_option maxRecDepth 4000 in
/-- Concrete check of `c6_truncation_only_at_boundary`: a 150-line diff is
stored whole by the fetcher, while the prompt boundary would keep only its
first 100 lines. -/
theorem c6_truncation_only_at_boundary_witness :
    getCommitDetails c6World "abc"
      = .ok { message := "msg", diff := diff150, files := "fls" }
    ∧ (jsSplitChar diff150 '\n').length = 150
    ∧ ((jsSplitChar diff150 '\n').take 100).length = 100 := by
  refine ⟨?_, by decide, by decide⟩
  have h := (c6_truncation_only_at_boundary c6World "abc" "msg" diff150 "fls"
    rfl rfl rfl).1
  rw [h]
  rfl

/-- C10: on an existing, tracked file in a repository, with non-empty
history and neither API-key variable set, `explain` still performs the
whole history resolution — the blame run, the detail fetches for the first
five records, and the code-context build, in that order — and only then
fails with the missing-API-key error; the missing-credential failure never
precedes history extraction. -/
theorem c10_key_check_after_history (w : World) (fp : String) (ln el : Option Int)
    (fn : Option String) (rt : ResolvedTarget) (output : String)
    (evs : List Event) (ds : List CommitFull)
    (hfe : w.fileExists = true) (hgr : w.gitRepoCheck = true)
    (hls : w.lsFilesCheck = true)
    (hrt : resolveTarget w.fileLines fp ln el fn = .ok rt)
    (hb : w.blameOut (blameSpan rt.targetLine rt.targetEndLine) = .ok output)
    (hne : ¬ (parseBlameOutput output).length = 0)
    (hfl : fetchLoop w ((parseBlameOutput output).take 5) = (evs, .ok ds))
    (hka : w.anthropicKey = none) (hko : w.openaiKey = none) :
    explain w fp ln el fn
      = ([Event.blameRun (blameSpan rt.targetLine rt.targetEndLine)] ++ evs
          ++ [Event.contextBuild (jsOrOne rt.targetLine)],
         .error Err.noApiKey) := by
  simp [explain, getBlame, callAI, truthyStr, hfe, hgr, hls, hrt, hb, hne, hfl,
    hka, hko]

/-- World of a tracked file with one commit of history, working git
detail calls, and no API keys. -/
def c10World : World :=
  { baseWorld with
    fileLines := ["l1", "l2", "l3", "l4"],
    blameOut := fun _ => Except.ok c5BlameStr,
    logMessage := fun _ => Except.ok "m",
    showDiff := fun _ => Except.ok "d",
    showNameStatus := fun _ => Except.ok "f" }

/-- Concrete check of `c10_key_check_after_history`: the trace shows
blame, one detail fetch and the context build all happening before the
missing-API-key failure. -/
theorem c10_key_check_after_history_witness :
    explain c10World "t.js" (some 2) none none
      = ([Event.blameRun (BlameSpan.single 2), Event.detailFetch hash40,
          Event.contextBuild 2],
         .error Err.noApiKey) := by
  have h := c10_key_check_after_history c10World "t.js" (some 2) none none
    { targetLine := some 2, targetEndLine := none } c5BlameStr
    [Event.detailFetch hash40]
    [{ hash := hash40, author := some "Alice", timestamp := none,
       summary := some "add", message := "m", diff := "d", files := "f" }]
    rfl rfl rfl rfl rfl (by decide) rfl rfl rfl
  rw [h]
  rfl

/-- One parsed CLI target (`bin/git-why.js` lines 42–72). -/
structure TargetSpec where
  filePath : String
  lineNumber : Option Int
  endLine : Option Int
  deriving Repr, DecidableEq

/-- The per-target loop of the CLI action (`bin/git-why.js` lines
81–124): run each target through the full pipeline sequentially; on
failure, when more than one target was requested in total
(`parsedTargets.length > 1`), report the error and continue with the next
target, otherwise rethrow.  Successes and reported errors accumulate in
order. -/
def processLoop (runOne : TargetSpec → Except Err ExplainResult) (total : Nat) :
    List TargetSpec → List (TargetSpec × ExplainResult) → List (TargetSpec × Err) →
    Except Err (List (TargetSpec × ExplainResult) × List (TargetSpec × Err))
  | [], res, errs => .ok (res, errs)
  | t :: rest, res, errs =>
    match runOne t with
    | .ok r => processLoop runOne total rest (res ++ [(t, r)]) errs
    | .error e =>
      if 1 < total then processLoop runOne total rest res (errs ++ [(t, e)])
      else .error e

/-- The whole CLI target loop (`bin/git-why.js` lines 79–124). -/
def processTargets (runOne : TargetSpec → Except Err ExplainResult)
    (targets : List TargetSpec) :
    Except Err (List (TargetSpec × ExplainResult) × List (TargetSpec × Err)) :=
  processLoop runOne targets.length targets [] []

/-- The CLI's per-target pipeline call (`bin/git-why.js` lines 97–101). -/
def cliRunOne (w : World) (fn : Option String) (t : TargetSpec) :
    Except Err ExplainResult :=
  (explain w t.filePath t.lineNumber t.endLine fn).2

/-- The targets that succeed, in order, with their results. -/
def okList (runOne : TargetSpec → Except Err ExplainResult) (ts : List TargetSpec) :
    List (TargetSpec × ExplainResult) :=
  ts.filterMap (fun t => match runOne t with | .ok r => some (t, r) | .error _ => none)

/-- The targets that fail, in order, with their reported errors. -/
def errList (runOne : TargetSpec → Except Err ExplainResult) (ts : List TargetSpec) :
    List (TargetSpec × Err) :=
  ts.filterMap (fun t => match runOne t with | .ok _ => none | .error e => some (t, e))

theorem processLoop_batch (runOne : TargetSpec → Except Err ExplainResult)
    (total : Nat) (h : 1 < total) :
    ∀ ts res errs, processLoop runOne total ts res errs
      = .ok (res ++ okList runOne ts, errs ++ errList runOne ts) := by
  intro ts
  induction ts with
  | nil => intro res errs; simp [processLoop, okList, errList]
  | cons t rest ih =>
    intro res errs
    cases hr : runOne t with
    | ok r =>
      simp only [processLoop, hr]
      rw [ih (res ++ [(t, r)]) errs]
      simp [okList, errList, List.filterMap_cons, hr]
    | error e =>
      simp only [processLoop, hr, if_pos h]
      rw [ih res (errs ++ [(t, e)])]
      simp [okList, errList, List.filterMap_cons, hr]

/-- C9: in batch mode (more than one target), targets run sequentially,
each through the full pipeline independently, and a failing target is
reported and does not abort the rest — every target is still processed;
in single-target mode the same error propagates directly and terminates
the run. -/
theorem c9_batch_isolation (w : World) (fn : Option String)
    (targets : List TargetSpec) :
    (1 < targets.length →
      processTargets (cliRunOne w fn) targets
        = .ok (okList (cliRunOne w fn) targets, errList (cliRunOne w fn) targets))
    ∧ ∀ t e, targets = [t] → cliRunOne w fn t = .error e →
        processTargets (cliRunOne w fn) targets = .error e := by
  constructor
  · intro h
    have h2 := processLoop_batch (cliRunOne w fn) targets.length h targets [] []
    simpa [processTargets] using h2
  · intro t e ht he
    subst ht
    simp [processTargets, processLoop, he]

/-- Concrete check of `c9_batch_isolation`: outside a repository, a
two-target batch reports both failures and finishes, while the same
single target aborts the run with the error. -/
theorem c9_batch_isolation_witness :
    processTargets (cliRunOne { baseWorld with gitRepoCheck := false } none)
        [{ filePath := "a.js", lineNumber := none, endLine := none },
         { filePath := "b.js", lineNumber := none, endLine := none }]
      = .ok ([],
          [({ filePath := "a.js", lineNumber := none, endLine := none }, Err.notGitRepo),
           ({ filePath := "b.js", lineNumber := none, endLine := none }, Err.notGitRepo)])
    ∧ processTargets (cliRunOne { baseWorld with gitRepoCheck := false } none)
        [{ filePath := "a.js", lineNumber := none, endLine := none }]
      = .error Err.notGitRepo := by
  constructor
  · have h := (c9_batch_isolation { baseWorld with gitRepoCheck := false } none
      [{ filePath := "a.js", lineNumber := none, endLine := none },
       { filePath := "b.js", lineNumber := none, endLine := none }]).1 (by decide)
    rw [h]
    rfl
  · exact (c9_batch_isolation { baseWorld with gitRepoCheck := false } none
      [{ filePath := "a.js", lineNumber := none, endLine := none }]).2
      { filePath := "a.js", lineNumber := none, endLine := none } Err.notGitRepo rfl rfl

end GitWhy
